import Mathlib

/-!
Verification of the SupplyChainTracing trade-statistics query layer.

The definitions below are a shallow embedding of the Python backend:

* `src/backend/app/routes/country_trade_stats.py` (filter builder, the four
  reporting endpoints, their catch-all error recovery),
* `src/backend/app/routes/shipments.py` (HS-code priority filter),
* `src/backend/app/routes/monthly_company_flows.py` (multi-value filters),
* `src/backend/app/routes/transactions.py` (country filters),
* `src/backend/app/utils/db_helpers.py` (`is_missing_table_error`),
* `src/backend/scripts/import_country_origin.py` and
  `src/backend/scripts/import_country_trade_stats.py` (ETL loaders and the
  `ON CONFLICT DO UPDATE` batch upsert).

SQL execution is modelled by evaluating the composed condition list over an
in-memory table (a `List` of typed rows) with SQL NULL represented by
`Option`; the database engine itself (an external collaborator) is abstracted
as an `Except String` value: `.ok rows` is a successful scan of the backing
table, `.error msg` is a failed execution carrying the driver message.
-/

namespace SupplyChain

/-! ### Python truthiness and string helpers

The route handlers guard every optional filter with Python truthiness
(`if hs_code:`), under which `None`, `""`, `0` and `[]` are all falsy. -/

def strTruthy : Option String → Bool
  | none => false
  | some s => !(s == "")

def intTruthy : Option Int → Bool
  | none => false
  | some v => !(v == 0)

def listTruthy : Option (List String) → Bool
  | none => false
  | some l => !l.isEmpty

def startsWithCL : List Char → List Char → Bool
  | [], _ => true
  | _ :: _, [] => false
  | c :: cs, d :: ds => c == d && startsWithCL cs ds

def containsCL (s pat : List Char) : Bool :=
  match s with
  | [] => pat.isEmpty
  | _ :: rest => startsWithCL pat s || containsCL rest pat

/-- Python's substring test `pat in s`. -/
def containsSub (s pat : String) : Bool :=
  containsCL s.data pat.data

/-- ASCII lower-casing of one character (`str.lower` on the ASCII error
messages the classifier inspects). -/
def lowerChar (c : Char) : Char :=
  if 65 ≤ c.toNat ∧ c.toNat ≤ 90 then Char.ofNat (c.toNat + 32) else c

def lowerStr (s : String) : String := ⟨s.data.map lowerChar⟩

/-- Python `str.split(sep)` for a one-character separator. -/
def splitOnCL (sep : Char) : List Char → List (List Char)
  | [] => [[]]
  | c :: rest =>
    let r := splitOnCL sep rest
    if c == sep then [] :: r
    else
      match r with
      | [] => [[c]]
      | h :: t => (c :: h) :: t

def digitVal (c : Char) : Option Nat :=
  if 48 ≤ c.toNat ∧ c.toNat ≤ 57 then some (c.toNat - 48) else none

def parseNatCL (acc : Nat) : List Char → Option Nat
  | [] => some acc
  | c :: cs =>
    match digitVal c with
    | some d => parseNatCL (acc * 10 + d) cs
    | none => none

/-- Python `int(str)` on the year/month pieces (digits with an optional
sign; the empty string raises). -/
def parseIntCL (s : List Char) : Option Int :=
  match s with
  | [] => none
  | c :: cs =>
    if c == '-' then
      match cs with
      | [] => none
      | _ => (parseNatCL 0 cs).map (fun n => -(n : Int))
    else (parseNatCL 0 s).map (fun n => (n : Int))

/-- `LPAD(month::text, 2, '0')` / Python `f"{month:02d}"` for month values. -/
def lpad2 (m : Int) : String :=
  let s := toString m
  if s.length < 2 then "0" ++ s else s

/-! ### SQL aggregate semantics

`SUM`/`AVG` over an empty (or all-NULL) column yield NULL; `COALESCE(_, 0)`
replaces NULL by zero.  NULL-able columns are `Option`-valued. -/

def sqlSumRat (xs : List (Option Rat)) : Option Rat :=
  let vs := xs.filterMap id
  if vs.isEmpty then none else some (vs.foldl (· + ·) 0)

def sqlSumInt (xs : List (Option Int)) : Option Int :=
  let vs := xs.filterMap id
  if vs.isEmpty then none else some (vs.foldl (· + ·) 0)

def sqlAvgRat (xs : List (Option Rat)) : Option Rat :=
  let vs := xs.filterMap id
  if vs.isEmpty then none else some (vs.foldl (· + ·) 0 / (vs.length : Rat))

/-! ### HTTP outcome of a request -/

inductive HttpOutcome (α : Type) where
  | success : α → HttpOutcome α
  | clientError : String → HttpOutcome α
  | serverError : String → HttpOutcome α
deriving DecidableEq

def HttpOutcome.isSuccess {α : Type} : HttpOutcome α → Bool
  | .success _ => true
  | _ => false

def HttpOutcome.isClientError {α : Type} : HttpOutcome α → Bool
  | .clientError _ => true
  | _ => false

def HttpOutcome.isServerError {α : Type} : HttpOutcome α → Bool
  | .serverError _ => true
  | _ => false

/-! ### Error classification

`app/utils/db_helpers.py : is_missing_table_error` — the classifier of
"relation does not exist" failures (message markers plus the psycopg2
`UndefinedTable` class surfaced through a SQLAlchemy `ProgrammingError`). -/

structure DbError where
  message : String
  isProgrammingError : Bool
  origMessage : Option String
deriving DecidableEq

def is_missing_table_error (e : DbError) : Bool :=
  let message := lowerStr e.message
  if containsSub message "undefinedtable" then true
  else if containsSub message "relation" && containsSub message "does not exist" then true
  else if e.isProgrammingError then
    match e.origMessage with
    | some orig => !(orig == "") && containsSub (lowerStr orig) "undefinedtable"
    | none => false
  else false

/-- The inline classification used by the `country_trade_stats.py` except
blocks: `"does not exist" in error_msg or "UndefinedTable" in error_msg or
"relation" in error_msg.lower()`. -/
def routeClassifyMissing (msg : String) : Bool :=
  containsSub msg "does not exist" || containsSub msg "UndefinedTable" ||
    containsSub (lowerStr msg) "relation"

/-! ### The `country_monthly_trade_stats` fact table -/

structure CmtsRow where
  id : String
  hs_code : String
  year : Int
  month : Int
  country_code : String
  industry : Option String
  weight : Option Rat
  quantity : Option Rat
  sum_of_usd : Option Rat
  weight_avg_price : Option Rat
  quantity_avg_price : Option Rat
  trade_count : Option Int
  amount_share_pct : Option Rat
deriving DecidableEq

/-- Query parameters of `GET /api/country-trade-stats` (and `/summary`,
which takes the same filters minus `limit`). -/
structure CtsParams where
  hs_code : Option (List String)
  year : Option Int
  month : Option Int
  country : Option (List String)
  industry : Option String
  start_year_month : Option String
  end_year_month : Option String
  limit : Option Int
deriving DecidableEq

def emptyCtsParams : CtsParams :=
  ⟨none, none, none, none, none, none, none, some 10000⟩

/-- Python `year_val, month_val = s.split('-')` followed by `int(...)` on both
parts.  A missing separator (or a doubled one) makes the tuple unpacking
raise; a non-numeric part makes `int` raise. -/
def parseYearMonth (s : String) : Except String (Int × Int) :=
  match splitOnCL '-' s.data with
  | [y, m] =>
    match parseIntCL y, parseIntCL m with
    | some yv, some mv => Except.ok (yv, mv)
    | _, _ => Except.error "invalid literal for int() with base 10"
  | _ => Except.error "cannot unpack year-month string"

/-- One parameterized WHERE fragment of the country-trade-stats query,
together with its bound values. -/
inductive CtsCond where
  | hsCodeIn (codes : List String)
  | yearEq (y : Int)
  | monthEq (m : Int)
  | countryIn (cs : List String)
  | industryEq (ind : String)
  | startRange (y m : Int)
  | endRange (y m : Int)
deriving DecidableEq

/-- Append the start-bound range fragment when the parameter is truthy;
a parse failure aborts the request (the raise inside the handler body). -/
def appendStartCond (ym : Option String) (conds : List CtsCond) :
    Except String (List CtsCond) :=
  if strTruthy ym then
    match parseYearMonth (ym.getD "") with
    | Except.ok v => Except.ok (conds ++ [CtsCond.startRange v.1 v.2])
    | Except.error e => Except.error e
  else Except.ok conds

/-- Append the end-bound range fragment when the parameter is truthy. -/
def appendEndCond (ym : Option String) (conds : List CtsCond) :
    Except String (List CtsCond) :=
  if strTruthy ym then
    match parseYearMonth (ym.getD "") with
    | Except.ok v => Except.ok (conds ++ [CtsCond.endRange v.1 v.2])
    | Except.error e => Except.error e
  else Except.ok conds

/-- The fragments appended before the year-month bounds, in source order:
HS codes, year, month, country codes, industry, each guarded by Python
truthiness. -/
def ctsBaseConds (p : CtsParams) : List CtsCond :=
  let conds1 : List CtsCond :=
    if listTruthy p.hs_code then [CtsCond.hsCodeIn (p.hs_code.getD [])] else []
  let conds2 :=
    if intTruthy p.year then conds1 ++ [CtsCond.yearEq (p.year.getD 0)] else conds1
  let conds3 :=
    if intTruthy p.month then conds2 ++ [CtsCond.monthEq (p.month.getD 0)] else conds2
  let conds4 :=
    if listTruthy p.country then conds3 ++ [CtsCond.countryIn (p.country.getD [])] else conds3
  if strTruthy p.industry then conds4 ++ [CtsCond.industryEq (p.industry.getD "")] else conds4

/-- The WHERE-clause builder shared verbatim by `get_country_trade_stats` and
`get_country_trade_stats_summary`: each truthy parameter appends one
fragment, in source order. -/
def buildCtsConds (p : CtsParams) : Except String (List CtsCond) :=
  match appendStartCond p.start_year_month (ctsBaseConds p) with
  | Except.error e => Except.error e
  | Except.ok conds6 => appendEndCond p.end_year_month conds6

/-- SQL semantics of one fragment on one row (`= NULL` never matches). -/
def evalCtsCond (c : CtsCond) (r : CmtsRow) : Bool :=
  match c with
  | .hsCodeIn codes => codes.contains r.hs_code
  | .yearEq y => r.year == y
  | .monthEq m => r.month == m
  | .countryIn cs => cs.contains r.country_code
  | .industryEq ind => r.industry == some ind
  | .startRange y m => decide (y < r.year) || (decide (r.year = y) && decide (m ≤ r.month))
  | .endRange y m => decide (r.year < y) || (decide (r.year = y) && decide (r.month ≤ m))

def evalCtsConds (conds : List CtsCond) (r : CmtsRow) : Bool :=
  conds.all (fun c => evalCtsCond c r)

/-- `ORDER BY year DESC, month DESC, sum_of_usd DESC` (Postgres puts NULLs
first in a descending sort). -/
def optRatDescLe (a b : Option Rat) : Bool :=
  match a, b with
  | none, _ => true
  | some _, none => false
  | some x, some y => decide (y ≤ x)

def ctsRowLe (a b : CmtsRow) : Bool :=
  if a.year ≠ b.year then decide (b.year ≤ a.year)
  else if a.month ≠ b.month then decide (b.month ≤ a.month)
  else optRatDescLe a.sum_of_usd b.sum_of_usd

/-- `LIMIT` is only appended when the parameter is truthy. -/
def applyCtsLimit (limit : Option Int) (l : List CmtsRow) : List CmtsRow :=
  if intTruthy limit then l.take (limit.getD 0).toNat else l

/-- `GET /api/country-trade-stats`.  The whole body sits in a `try` whose
`except Exception` checks the missing-relation markers but returns the empty
list on BOTH branches (the second branch is commented "其他错误也返回空列表",
i.e. other errors also return the empty list). -/
def getCountryTradeStatsRoute (p : CtsParams) (db : Except String (List CmtsRow)) :
    HttpOutcome (List CmtsRow) :=
  let body : Except String (List CmtsRow) :=
    match buildCtsConds p with
    | Except.error e => Except.error e
    | Except.ok conds =>
      match db with
      | Except.error e => Except.error e
      | Except.ok rows =>
        Except.ok (applyCtsLimit p.limit
          (List.mergeSort (rows.filter (evalCtsConds conds)) ctsRowLe))
  match body with
  | .ok stats => .success stats
  | .error msg =>
    if routeClassifyMissing msg then
      .success []
    else
      .success []

/-- Response row of `GET /api/country-trade-stats/summary`; the summed
aggregates are `COALESCE`-wrapped in the SELECT list, so the query path
always produces concrete numbers (`some _`), never SQL NULL. -/
structure SummaryOut where
  total_countries : Nat
  total_trade_value : Rat
  total_weight : Option Rat
  total_quantity : Option Rat
  total_trade_count : Int
  avg_share_pct : Rat
deriving DecidableEq

/-- The literal default dict returned by the summary handler's error paths
(note `total_weight`/`total_quantity` are `None` there, unlike the query
path which coalesces them to 0). -/
def zeroSummaryDefault : SummaryOut :=
  { total_countries := 0
    total_trade_value := 0
    total_weight := none
    total_quantity := none
    total_trade_count := 0
    avg_share_pct := 0 }

/-- The single-row aggregate SELECT of the summary endpoint evaluated over
the filtered row set. -/
def evalSummaryQuery (rows : List CmtsRow) : SummaryOut :=
  { total_countries := ((rows.map (fun r => r.country_code)).dedup).length
    total_trade_value := (sqlSumRat (rows.map (fun r => r.sum_of_usd))).getD 0
    total_weight := some ((sqlSumRat (rows.map (fun r => r.weight))).getD 0)
    total_quantity := some ((sqlSumRat (rows.map (fun r => r.quantity))).getD 0)
    total_trade_count := (sqlSumInt (rows.map (fun r => r.trade_count))).getD 0
    avg_share_pct := (sqlAvgRat (rows.map (fun r => r.amount_share_pct))).getD 0 }

/-- `GET /api/country-trade-stats/summary`: same filter builder, aggregate
SELECT, and the same catch-all recovery, returning the zero-valued default
dict on every failure (classified missing-relation or not). -/
def getCountryTradeStatsSummaryRoute (p : CtsParams) (db : Except String (List CmtsRow)) :
    HttpOutcome SummaryOut :=
  let body : Except String SummaryOut :=
    match buildCtsConds p with
    | Except.error e => Except.error e
    | Except.ok conds =>
      match db with
      | Except.error e => Except.error e
      | Except.ok rows => Except.ok (evalSummaryQuery (rows.filter (evalCtsConds conds)))
  match body with
  | .ok s => .success s
  | .error msg =>
    if routeClassifyMissing msg then
      .success zeroSummaryDefault
    else
      .success zeroSummaryDefault

/-! ### `GET /api/country-trade-stats/trends` -/

/-- Query parameters of the trends endpoint — here `hs_code` and `country`
are scalars, not lists. -/
structure TrendsParams where
  hs_code : Option String
  country : Option String
  industry : Option String
  start_year_month : Option String
  end_year_month : Option String
deriving DecidableEq

/-- The trends WHERE builder: scalar equality fragments plus the shared
year-month range fragments, in source order. -/
def buildTrendsConds (p : TrendsParams) : Except String (List CtsCond) :=
  let conds1 : List CtsCond :=
    if strTruthy p.hs_code then [CtsCond.hsCodeIn [p.hs_code.getD ""]] else []
  let conds2 :=
    if strTruthy p.country then conds1 ++ [CtsCond.countryIn [p.country.getD ""]] else conds1
  let conds3 :=
    if strTruthy p.industry then conds2 ++ [CtsCond.industryEq (p.industry.getD "")] else conds2
  match appendStartCond p.start_year_month conds3 with
  | Except.error e => Except.error e
  | Except.ok conds4 => appendEndCond p.end_year_month conds4

/-- Response row of the trends endpoint: the period label plus coalesced
sums (`TO_CHAR(TO_DATE(year || '-' || LPAD(month::text, 2, '0') || '-01',
'YYYY-MM-DD'), 'YYYY-MM')` renders the group key back as `YYYY-MM`). -/
structure TrendOut where
  year_month : String
  sum_of_usd : Rat
  weight : Rat
  quantity : Rat
  trade_count : Int
deriving DecidableEq

/-- Ascending `(year, month)` order of `ORDER BY year, month`. -/
def ymAscLe (a b : Int × Int) : Bool :=
  decide (a.1 < b.1) || (decide (a.1 = b.1) && decide (a.2 ≤ b.2))

/-- The distinct `GROUP BY year, month` keys of the filtered set, in the
ascending order the query's `ORDER BY year, month` emits them. -/
def trendKeys (rows : List CmtsRow) : List (Int × Int) :=
  List.mergeSort ((rows.map (fun r => (r.year, r.month))).dedup) ymAscLe

def mkTrendRow (rows : List CmtsRow) (ym : Int × Int) : TrendOut :=
  let grp := rows.filter (fun r => r.year == ym.1 && r.month == ym.2)
  { year_month := toString ym.1 ++ "-" ++ lpad2 ym.2
    sum_of_usd := (sqlSumRat (grp.map (fun r => r.sum_of_usd))).getD 0
    weight := (sqlSumRat (grp.map (fun r => r.weight))).getD 0
    quantity := (sqlSumRat (grp.map (fun r => r.quantity))).getD 0
    trade_count := (sqlSumInt (grp.map (fun r => r.trade_count))).getD 0 }

/-- The grouped-and-ordered result of the trends query, with each output row
paired with the `(year, month)` group key it was reduced from. -/
def trendsQueryRows (rows : List CmtsRow) : List ((Int × Int) × TrendOut) :=
  (trendKeys rows).map (fun ym => (ym, mkTrendRow rows ym))

/-- `GET /api/country-trade-stats/trends`, with the same catch-all recovery
to the empty list on every failure. -/
def getTrendsRoute (p : TrendsParams) (db : Except String (List CmtsRow)) :
    HttpOutcome (List TrendOut) :=
  let body : Except String (List TrendOut) :=
    match buildTrendsConds p with
    | Except.error e => Except.error e
    | Except.ok conds =>
      match db with
      | Except.error e => Except.error e
      | Except.ok rows =>
        Except.ok ((trendsQueryRows (rows.filter (evalCtsConds conds))).map (fun e => e.2))
  match body with
  | .ok trends => .success trends
  | .error msg =>
    if routeClassifyMissing msg then
      .success []
    else
      .success []

/-! ### `GET /api/country-trade-stats/top-countries` -/

structure TopCountriesParams where
  hs_code : Option String
  year : Option Int
  month : Option Int
  industry : Option String
deriving DecidableEq

def buildTopCountriesConds (p : TopCountriesParams) : List CtsCond :=
  let conds1 : List CtsCond :=
    if strTruthy p.hs_code then [CtsCond.hsCodeIn [p.hs_code.getD ""]] else []
  let conds2 :=
    if intTruthy p.year then conds1 ++ [CtsCond.yearEq (p.year.getD 0)] else conds1
  let conds3 :=
    if intTruthy p.month then conds2 ++ [CtsCond.monthEq (p.month.getD 0)] else conds2
  if strTruthy p.industry then conds3 ++ [CtsCond.industryEq (p.industry.getD "")] else conds3

/-- FastAPI default of the `limit` query parameter: `limit: int = Query(10)`. -/
def topCountriesDefaultLimit : Int := 10

structure TopCountryOut where
  country_code : String
  sum_of_usd : Rat
  weight : Rat
  quantity : Rat
  trade_count : Int
  amount_share_pct : Rat
deriving DecidableEq

def mkTopCountryRow (rows : List CmtsRow) (c : String) : TopCountryOut :=
  let grp := rows.filter (fun r => r.country_code == c)
  { country_code := c
    sum_of_usd := (sqlSumRat (grp.map (fun r => r.sum_of_usd))).getD 0
    weight := (sqlSumRat (grp.map (fun r => r.weight))).getD 0
    quantity := (sqlSumRat (grp.map (fun r => r.quantity))).getD 0
    trade_count := (sqlSumInt (grp.map (fun r => r.trade_count))).getD 0
    amount_share_pct := (sqlAvgRat (grp.map (fun r => r.amount_share_pct))).getD 0 }

/-- Descending order by summed USD value (`ORDER BY sum_of_usd DESC`). -/
def usdDescLe (a b : TopCountryOut) : Bool :=
  decide (b.sum_of_usd ≤ a.sum_of_usd)

/-- `GROUP BY country_code ORDER BY sum_of_usd DESC LIMIT :limit`. -/
def topCountriesQuery (rows : List CmtsRow) (limit : Int) : List TopCountryOut :=
  (List.mergeSort
    (((rows.map (fun r => r.country_code)).dedup).map (mkTopCountryRow rows))
    usdDescLe).take limit.toNat

/-- `GET /api/country-trade-stats/top-countries`, with the same catch-all
recovery to the empty list on every failure. -/
def getTopCountriesRoute (p : TopCountriesParams) (limit : Int)
    (db : Except String (List CmtsRow)) : HttpOutcome (List TopCountryOut) :=
  let body : Except String (List TopCountryOut) :=
    match db with
    | Except.error e => Except.error e
    | Except.ok rows =>
      Except.ok (topCountriesQuery (rows.filter (evalCtsConds (buildTopCountriesConds p))) limit)
  match body with
  | .ok tops => .success tops
  | .error msg =>
    if routeClassifyMissing msg then
      .success []
    else
      .success []

/-! ### `GET /api/shipments` over `country_origin_trade_stats` -/

structure CotsRow where
  id : String
  hs_code : String
  year : Int
  month : Int
  origin_country_code : String
  destination_country_code : String
  industry : Option String
  weight : Option Rat
  quantity : Option Rat
  sum_of_usd : Option Rat
  weight_avg_price : Option Rat
  quantity_avg_price : Option Rat
  trade_count : Option Int
  amount_share_pct : Option Rat
deriving DecidableEq

/-- Query parameters of `get_shipments`.  The source names the 2-digit
chapter filter `hs_code_prefix`; it is rendered here as `hs_code_pfx`. -/
structure ShipParams where
  start_year_month : Option String
  end_year_month : Option String
  country : Option (List String)
  hs_code_pfx : Option (List String)
  hs_code : Option (List String)
  industry : Option String
  limit : Option Int
deriving DecidableEq

inductive ShipCond where
  | startRange (y m : Int)
  | endRange (y m : Int)
  | countryOrIn (cs : List String)
  | hsCodeIn (codes : List String)
  | hsPfxIn (ps : List String)
  | industryEq (ind : String)
deriving DecidableEq

/-- The shipments WHERE builder, in source order: year-month range, the
origin-OR-destination country filter, then the HS-code filter where a truthy
full-code list wins and the 2-digit chapter filter is only reached through
the `elif`, then industry. -/
def shipStartConds (ym : Option String) : Except String (List ShipCond) :=
  if strTruthy ym then
    match parseYearMonth (ym.getD "") with
    | Except.ok v => Except.ok [ShipCond.startRange v.1 v.2]
    | Except.error e => Except.error e
  else Except.ok []

def shipEndConds (ym : Option String) (conds : List ShipCond) :
    Except String (List ShipCond) :=
  if strTruthy ym then
    match parseYearMonth (ym.getD "") with
    | Except.ok v => Except.ok (conds ++ [ShipCond.endRange v.1 v.2])
    | Except.error e => Except.error e
  else Except.ok conds

def buildShipmentsConds (p : ShipParams) : Except String (List ShipCond) :=
  match shipStartConds p.start_year_month with
  | Except.error e => Except.error e
  | Except.ok conds1 =>
    match shipEndConds p.end_year_month conds1 with
    | Except.error e => Except.error e
    | Except.ok conds2 =>
      let conds3 :=
        if listTruthy p.country then conds2 ++ [ShipCond.countryOrIn (p.country.getD [])]
        else conds2
      let conds4 :=
        if listTruthy p.hs_code then conds3 ++ [ShipCond.hsCodeIn (p.hs_code.getD [])]
        else if listTruthy p.hs_code_pfx then conds3 ++ [ShipCond.hsPfxIn (p.hs_code_pfx.getD [])]
        else conds3
      Except.ok
        (if strTruthy p.industry then conds4 ++ [ShipCond.industryEq (p.industry.getD "")]
         else conds4)

/-- SQL semantics of the shipments fragments; the chapter filter tests
`SUBSTRING(hs_code, 1, 2)`, i.e. the first two characters. -/
def evalShipCond (c : ShipCond) (r : CotsRow) : Bool :=
  match c with
  | .startRange y m => decide (y < r.year) || (decide (r.year = y) && decide (m ≤ r.month))
  | .endRange y m => decide (r.year < y) || (decide (r.year = y) && decide (r.month ≤ m))
  | .countryOrIn cs =>
    cs.contains r.origin_country_code || cs.contains r.destination_country_code
  | .hsCodeIn codes => codes.contains r.hs_code
  | .hsPfxIn ps => ps.contains (r.hs_code.take 2)
  | .industryEq ind => r.industry == some ind

def evalShipConds (conds : List ShipCond) (r : CotsRow) : Bool :=
  conds.all (fun c => evalShipCond c r)

/-! ### `GET /api/monthly-company-flows` -/

structure McfRow where
  year_month : String
  exporter_name : String
  importer_name : String
  origin_country : String
  destination_country : String
  hs_codes : Option String
  transaction_count : Int
  total_value_usd : Rat
  total_weight_kg : Option Rat
  total_quantity : Option Rat
deriving DecidableEq

structure McfParams where
  start_year_month : Option String
  end_year_month : Option String
  country : Option (List String)
  company : Option (List String)
  category_id : Option (List String)
  hs_code : Option (List String)
deriving DecidableEq

/-- The three shapes of the monthly-company-flows base query: the plain
scan, the 2-digit HS-chapter variant (`LEFT(TRIM(hs_code_val), 2) IN ...`
over the unnested comma-joined `hs_codes`), and the category-id variant that
joins the unnested codes against `hs_code_categories`. -/
inductive McfBase where
  | plain
  | byHsCode2 (codes : List String)
  | byCategory (ids : List String)
deriving DecidableEq

inductive McfCond where
  | startYm (s : String)
  | endYm (s : String)
  | countryOrIn (cs : List String)
  | companyOrIn (cs : List String)
deriving DecidableEq

structure McfQuery where
  base : McfBase
  conds : List McfCond
deriving DecidableEq

/-- The monthly-company-flows query builder: the plain filters are appended
first; a truthy `hs_code` (taking priority over `category_id`) or a truthy
`category_id` replaces the base query and rebuilds the same filters in the
same order on top of it. -/
def buildMcfQuery (p : McfParams) : McfQuery :=
  let conds1 : List McfCond :=
    if strTruthy p.start_year_month then [McfCond.startYm (p.start_year_month.getD "")] else []
  let conds2 :=
    if strTruthy p.end_year_month then conds1 ++ [McfCond.endYm (p.end_year_month.getD "")] else conds1
  let conds3 :=
    if listTruthy p.country then conds2 ++ [McfCond.countryOrIn (p.country.getD [])] else conds2
  let conds4 :=
    if listTruthy p.company then conds3 ++ [McfCond.companyOrIn (p.company.getD [])] else conds3
  if listTruthy p.hs_code then
    { base := McfBase.byHsCode2 (p.hs_code.getD []), conds := conds4 }
  else if listTruthy p.category_id then
    { base := McfBase.byCategory (p.category_id.getD []), conds := conds4 }
  else
    { base := McfBase.plain, conds := conds4 }

/-- A row of the `hs_code_categories` mapping table (2-digit chapter to
category id). -/
structure HsCat where
  hs_code : String
  category_id : String
deriving DecidableEq

/-- Semantics of the unnest-join bases: the fact row mentions at least one
HS code whose trimmed 2-character chapter is in the requested set (or maps
into a requested category). -/
def evalMcfBase (cats : List HsCat) (b : McfBase) (r : McfRow) : Bool :=
  match b with
  | .plain => true
  | .byHsCode2 codes =>
    ((r.hs_codes.getD "").splitOn ",").any (fun c => codes.contains (c.trim.take 2))
  | .byCategory ids =>
    ((r.hs_codes.getD "").splitOn ",").any (fun c =>
      cats.any (fun h => h.hs_code == c.trim.take 2 && ids.contains h.category_id))

def evalMcfCond (c : McfCond) (r : McfRow) : Bool :=
  match c with
  | .startYm s => decide (s ≤ r.year_month)
  | .endYm s => decide (r.year_month ≤ s)
  | .countryOrIn cs => cs.contains r.origin_country || cs.contains r.destination_country
  | .companyOrIn cs => cs.contains r.exporter_name || cs.contains r.importer_name

def evalMcfQuery (cats : List HsCat) (q : McfQuery) (r : McfRow) : Bool :=
  evalMcfBase cats q.base r && q.conds.all (fun c => evalMcfCond c r)

/-! ### `GET /api/transactions` -/

structure Txn where
  id : String
  exporter_company_id : Option String
  importer_company_id : Option String
  origin_country_code : String
  destination_country_code : String
  category_id : String
  quantity : Rat
  price : Rat
  total_value : Rat
  transaction_date : Int
  status : String
deriving DecidableEq

/-- Query parameters of `get_transactions` relevant to filtering.  The ISO
date strings are abstracted to their parsed timestamps (`datetime` parsing
is an external collaborator); `transaction_date` is ordered as an integer
timestamp. -/
structure TxnParams where
  start_date : Option Int
  end_date : Option Int
  origin_country : Option (List String)
  destination_country : Option String
  category_id : Option (List String)
  company_id : Option String
  min_value : Option Rat
  max_value : Option Rat
  status : Option String
deriving DecidableEq

def emptyTxnParams : TxnParams :=
  ⟨none, none, none, none, none, none, none, none, none⟩

/-- `transaction_date >= start_dt` when a start date is supplied. -/
def txnStartOk (p : TxnParams) (t : Txn) : Bool :=
  match p.start_date with
  | some d => decide (d ≤ t.transaction_date)
  | none => true

def txnEndOk (p : TxnParams) (t : Txn) : Bool :=
  match p.end_date with
  | some d => decide (t.transaction_date ≤ d)
  | none => true

/-- The `origin_country` filter:
`or_(origin.in_(origin_country), destination.in_(origin_country))`. -/
def txnOriginOk (p : TxnParams) (t : Txn) : Bool :=
  if listTruthy p.origin_country then
    (p.origin_country.getD []).contains t.origin_country_code ||
      (p.origin_country.getD []).contains t.destination_country_code
  else true

/-- The `destination_country` filter: equality on the destination column. -/
def txnDestOk (p : TxnParams) (t : Txn) : Bool :=
  if strTruthy p.destination_country then
    t.destination_country_code == p.destination_country.getD ""
  else true

def txnCatOk (p : TxnParams) (t : Txn) : Bool :=
  if listTruthy p.category_id then (p.category_id.getD []).contains t.category_id
  else true

def txnCompanyOk (p : TxnParams) (t : Txn) : Bool :=
  if strTruthy p.company_id then
    t.exporter_company_id == some (p.company_id.getD "") ||
      t.importer_company_id == some (p.company_id.getD "")
  else true

/-- `min_value`/`max_value` use `is not None` rather than truthiness. -/
def txnMinOk (p : TxnParams) (t : Txn) : Bool :=
  match p.min_value with
  | some v => decide (v ≤ t.total_value)
  | none => true

def txnMaxOk (p : TxnParams) (t : Txn) : Bool :=
  match p.max_value with
  | some v => decide (t.total_value ≤ v)
  | none => true

/-- `status` is split on commas, each piece trimmed. -/
def txnStatusOk (p : TxnParams) (t : Txn) : Bool :=
  if strTruthy p.status then
    (((p.status.getD "").splitOn ",").map (fun s => s.trim)).contains t.status
  else true

/-- The composed filter of `get_transactions`: one conjunct per truthy
parameter, in source order. -/
def txnMatches (p : TxnParams) (t : Txn) : Bool :=
  txnStartOk p t && txnEndOk p t && txnOriginOk p t && txnDestOk p t &&
    txnCatOk p t && txnCompanyOk p t && txnMinOk p t && txnMaxOk p t &&
    txnStatusOk p t

/-! ### ETL source records

One stat object of the source JSON; `none` models an absent key (the
loaders read every field with `dict.get`). -/

structure StatData where
  weight : Option Rat
  quantity : Option Rat
  countryCode : Option String
  sumOfUSD : Option Rat
  weightAvgPrice : Option Rat
  quantityAvgPrice : Option Rat
  tradeCount : Option Int
  amountSharePct : Option Rat
deriving DecidableEq

/-- `import_country_origin.py : should_filter_record` — drop when
`weight = 0`, `quantity = 0` (both defaulting to 0 when absent) or
`countryCode = "N/A"` (defaulting to `""`). -/
def should_filter_record (s : StatData) : Bool :=
  s.weight.getD 0 == 0 || s.quantity.getD 0 == 0 || s.countryCode.getD "" == "N/A"

/-- Whether one stat of the origin-destination nested structure survives the
inner loop of `import_country_origin.py : import_json_file`: it must pass
`should_filter_record` and its `countryCode` (defaulting to the origin
country code) must not be the `"N/A"` sentinel. -/
def nestedStatKept (origin : String) (s : StatData) : Bool :=
  !(should_filter_record s) && !(s.countryCode.getD origin == "N/A")

/-- Whether one stat of the flat monthly structure survives the inner loop
of `import_country_trade_stats.py : import_json_file`: only
`if not country_code or country_code == 'N/A': continue` — no weight or
quantity check. -/
def flatStatKept (s : StatData) : Bool :=
  let cc := s.countryCode.getD ""
  !(cc == "" || cc == "N/A")

/-- The three-part validity filter as the specification words it. -/
def specClaimedDrop (s : StatData) : Bool :=
  s.weight.getD 0 == 0 || s.quantity.getD 0 == 0 || s.countryCode.getD "" == "N/A"

/-- A loaded `country_monthly_trade_stats` record as the flat loader builds
it (`tradeCount` goes through Python truthiness: 0 or absent becomes NULL). -/
structure FlatRecord where
  id : String
  hs_code : String
  year : Int
  month : Int
  country_code : String
  industry : String
  weight : Option Rat
  quantity : Option Rat
  sum_of_usd : Option Rat
  weight_avg_price : Option Rat
  quantity_avg_price : Option Rat
  trade_count : Option Int
  amount_share_pct : Option Rat
deriving DecidableEq

def pyTradeCount (tc : Option Int) : Option Int :=
  match tc with
  | some v => if v == 0 then none else some v
  | none => none

def mkFlatRecord (hs : String) (year : Int) (industry : String) (month : Int)
    (s : StatData) : FlatRecord :=
  { id := hs ++ "_" ++ toString year ++ "_" ++ lpad2 month ++ "_" ++ s.countryCode.getD ""
    hs_code := hs
    year := year
    month := month
    country_code := s.countryCode.getD ""
    industry := industry
    weight := s.weight
    quantity := s.quantity
    sum_of_usd := s.sumOfUSD
    weight_avg_price := s.weightAvgPrice
    quantity_avg_price := s.quantityAvgPrice
    trade_count := pyTradeCount s.tradeCount
    amount_share_pct := some (s.amountSharePct.getD 0) }

/-- One month entry of the flat JSON: the key must be a 2-character digit
string (`month_str.isdigit() and len(month_str) == 2`), then every country
stat passing the country-code check becomes a record. -/
def flatProcessMonth (hs : String) (year : Int) (industry : String)
    (mstr : String) (lst : List StatData) : List FlatRecord :=
  if !mstr.data.isEmpty && mstr.data.all Char.isDigit && mstr.data.length == 2 then
    (lst.filter flatStatKept).map
      (mkFlatRecord hs year industry ((parseIntCL mstr.data).getD 0))
  else []

/-- `import_country_trade_stats.py : import_json_file` — the records one
flat monthly file contributes, in iteration order. -/
def importFlatFile (hs : String) (year : Int) (industry : String)
    (data : List (String × List StatData)) : List FlatRecord :=
  data.flatMap (fun e => flatProcessMonth hs year industry e.1 e.2)

/-- A loaded `country_origin_trade_stats` record as the nested loader
builds it. -/
structure OriginRecord where
  id : String
  hs_code : String
  year : Int
  month : Int
  origin_country_code : String
  destination_country_code : String
  industry : String
  weight : Option Rat
  quantity : Option Rat
  sum_of_usd : Option Rat
  weight_avg_price : Option Rat
  quantity_avg_price : Option Rat
  trade_count : Option Int
  amount_share_pct : Option Rat
deriving DecidableEq

/-- The deterministic primary key of the nested loader:
`f"{hs_code}_{year}_{month:02d}_{origin_country_code}_{dest_country_code}"`. -/
def mkOriginStatId (hs : String) (year month : Int) (origin dest : String) : String :=
  hs ++ "_" ++ toString year ++ "_" ++ lpad2 month ++ "_" ++ origin ++ "_" ++ dest

def mkOriginRecord (hs : String) (year month : Int) (industry origin dest : String)
    (s : StatData) : OriginRecord :=
  { id := mkOriginStatId hs year month origin dest
    hs_code := hs
    year := year
    month := month
    origin_country_code := origin
    destination_country_code := dest
    industry := industry
    weight := s.weight
    quantity := s.quantity
    sum_of_usd := s.sumOfUSD
    weight_avg_price := s.weightAvgPrice
    quantity_avg_price := s.quantityAvgPrice
    trade_count := pyTradeCount s.tradeCount
    amount_share_pct := some (s.amountSharePct.getD 0) }

/-- `import_country_origin.py : import_json_file` — the records one nested
origin-destination file contributes: origins and destinations equal to
`"N/A"` are skipped wholesale, and each stat must pass `nestedStatKept`. -/
def importNestedFile (hs : String) (year month : Int) (industry : String)
    (data : List (String × List (String × List StatData))) : List OriginRecord :=
  data.flatMap (fun og =>
    if og.1 == "N/A" then []
    else og.2.flatMap (fun dg =>
      if dg.1 == "N/A" then []
      else (dg.2.filter (nestedStatKept og.1)).map
        (mkOriginRecord hs year month industry og.1 dg.1)))

/-! ### The idempotent batch upsert

`_batch_insert` issues one multi-row
`INSERT ... ON CONFLICT (natural key) DO UPDATE SET <every non-key data
column> = EXCLUDED.<column>`.  A table is an association list from the
natural key to the stored columns; the conflict branch overwrites the
listed columns with the incoming values, keeping the stored `id` (which is
not in the `DO UPDATE SET` list).  Rows of one statement apply in order. -/

def keysOf {κ ν : Type} (t : List (κ × ν)) : List κ := t.map Prod.fst

def lookupRow {κ ν : Type} [DecidableEq κ] (t : List (κ × ν)) (k : κ) : Option ν :=
  (t.find? (fun e => decide (e.1 = k))).map Prod.snd

/-- Insert-or-update with an explicit conflict resolution `merge old new`. -/
def upsertWith {κ ν : Type} [DecidableEq κ] (merge : ν → ν → ν)
    (t : List (κ × ν)) (k : κ) (v : ν) : List (κ × ν) :=
  if k ∈ keysOf t then
    t.map (fun e => if e.1 = k then (k, merge e.2 v) else e)
  else t ++ [(k, v)]

def applyBatchWith {κ ν : Type} [DecidableEq κ] (merge : ν → ν → ν)
    (t : List (κ × ν)) (b : List (κ × ν)) : List (κ × ν) :=
  b.foldl (fun acc e => upsertWith merge acc e.1 e.2) t

/-- Natural key of `country_origin_trade_stats`
(`uq_hs_year_month_origin_dest`). -/
structure OriginKey where
  hs_code : String
  year : Int
  month : Int
  origin_country_code : String
  destination_country_code : String
deriving DecidableEq

/-- The stored non-key columns of a `country_origin_trade_stats` row. -/
structure OriginVals where
  id : String
  industry : String
  weight : Option Rat
  quantity : Option Rat
  sum_of_usd : Option Rat
  weight_avg_price : Option Rat
  quantity_avg_price : Option Rat
  trade_count : Option Int
  amount_share_pct : Option Rat
deriving DecidableEq

def OriginRecord.key (r : OriginRecord) : OriginKey :=
  ⟨r.hs_code, r.year, r.month, r.origin_country_code, r.destination_country_code⟩

def OriginRecord.vals (r : OriginRecord) : OriginVals :=
  ⟨r.id, r.industry, r.weight, r.quantity, r.sum_of_usd, r.weight_avg_price,
    r.quantity_avg_price, r.trade_count, r.amount_share_pct⟩

/-- `ON CONFLICT ... DO UPDATE SET weight = EXCLUDED.weight, ...` for the
origin table: every listed column takes the incoming value; `id` (absent
from the SET list) keeps the stored value.  `industry` is likewise not in
this script's SET list. -/
def mergeOriginOnConflict (old incoming : OriginVals) : OriginVals :=
  { incoming with id := old.id, industry := old.industry }

/-- The table mutation performed by one `_batch_insert` statement of
`import_country_origin.py`. -/
def originBatchInsert (t : List (OriginKey × OriginVals))
    (b : List (OriginKey × OriginVals)) : List (OriginKey × OriginVals) :=
  applyBatchWith mergeOriginOnConflict t b

/-! ### Laws of the batch upsert -/

theorem lookupRow_nil {κ ν : Type} [DecidableEq κ] (k : κ) :
    lookupRow ([] : List (κ × ν)) k = none := rfl

theorem lookupRow_cons {κ ν : Type} [DecidableEq κ] (e : κ × ν)
    (t : List (κ × ν)) (k : κ) :
    lookupRow (e :: t) k = if e.1 = k then some e.2 else lookupRow t k := by
  simp only [lookupRow, List.find?]
  by_cases h : e.1 = k
  · simp [h]
  · simp [h]

theorem lookupRow_eq_none_iff {κ ν : Type} [DecidableEq κ]
    {t : List (κ × ν)} {k : κ} : lookupRow t k = none ↔ k ∉ keysOf t := by
  induction t with
  | nil => simp [lookupRow, keysOf]
  | cons e rest ih =>
    rw [lookupRow_cons]
    by_cases h : e.1 = k
    · simp [keysOf, h]
    · have h' : ¬ (k = e.1) := fun hc => h hc.symm
      simp [keysOf, h, h', ih]

theorem keysOf_map_replace {κ ν : Type} [DecidableEq κ] (m : ν → ν → ν)
    (t : List (κ × ν)) (k : κ) (v : ν) :
    keysOf (t.map (fun e => if e.1 = k then (k, m e.2 v) else e)) = keysOf t := by
  induction t with
  | nil => rfl
  | cons e rest ih =>
    by_cases he : e.1 = k
    · simp only [keysOf, List.map_cons] at ih ⊢
      rw [if_pos he]
      simpa [he] using ih
    · simp only [keysOf, List.map_cons] at ih ⊢
      rw [if_neg he]
      simpa using ih

theorem keysOf_upsertWith {κ ν : Type} [DecidableEq κ] (m : ν → ν → ν)
    (t : List (κ × ν)) (k : κ) (v : ν) :
    keysOf (upsertWith m t k v) =
      if k ∈ keysOf t then keysOf t else keysOf t ++ [k] := by
  unfold upsertWith
  by_cases h : k ∈ keysOf t
  · rw [if_pos h, if_pos h, keysOf_map_replace]
  · rw [if_neg h, if_neg h]
    simp [keysOf]

theorem lookupRow_map_replace {κ ν : Type} [DecidableEq κ] (m : ν → ν → ν)
    (t : List (κ × ν)) (k k' : κ) (v : ν) :
    lookupRow (t.map (fun e => if e.1 = k then (k, m e.2 v) else e)) k' =
      if k' = k then (lookupRow t k).map (fun o => m o v) else lookupRow t k' := by
  induction t with
  | nil => by_cases h : k' = k <;> simp [lookupRow, h]
  | cons e rest ih =>
    by_cases he : e.1 = k
    · rw [List.map_cons, if_pos he]
      simp only [lookupRow_cons, ih]
      by_cases hk : k' = k
      · subst hk
        simp [he]
      · have hk' : ¬ (k = k') := fun hc => hk hc.symm
        have he2 : ¬ (e.1 = k') := fun hc => hk' (he ▸ hc)
        simp [he, he2, hk, hk']
    · rw [List.map_cons, if_neg he]
      simp only [lookupRow_cons, ih]
      by_cases hek : e.1 = k'
      · by_cases hk : k' = k
        · exact absurd (hk ▸ hek) he
        · simp [hek, hk]
      · simp [hek, he]

theorem lookupRow_append_single {κ ν : Type} [DecidableEq κ]
    (t : List (κ × ν)) (k k' : κ) (v : ν) :
    lookupRow (t ++ [(k, v)]) k' =
      match lookupRow t k' with
      | some o => some o
      | none => if k' = k then some v else none := by
  induction t with
  | nil =>
    by_cases h : k' = k
    · subst h
      simp [lookupRow_cons, lookupRow]
    · have h2 : ¬ (k = k') := fun hc => h hc.symm
      simp [lookupRow_cons, lookupRow, h, h2]
  | cons e rest ih =>
    by_cases hek : e.1 = k'
    · simp [List.cons_append, lookupRow_cons, hek]
    · simp [List.cons_append, lookupRow_cons, hek, ih]

theorem lookupRow_upsertWith {κ ν : Type} [DecidableEq κ] (m : ν → ν → ν)
    (t : List (κ × ν)) (k k' : κ) (v : ν) :
    lookupRow (upsertWith m t k v) k' =
      if k' = k then
        match lookupRow t k with
        | some o => some (m o v)
        | none => some v
      else lookupRow t k' := by
  unfold upsertWith
  by_cases h : k ∈ keysOf t
  · rw [if_pos h, lookupRow_map_replace]
    by_cases hk : k' = k
    · rw [if_pos hk, if_pos hk]
      rcases ho : lookupRow t k with _ | o
      · exact absurd h (lookupRow_eq_none_iff.mp ho)
      · simp
    · rw [if_neg hk, if_neg hk]
  · rw [if_neg h, lookupRow_append_single]
    have ho : lookupRow t k = none := lookupRow_eq_none_iff.mpr h
    by_cases hk : k' = k
    · subst hk
      simp [ho]
    · rcases ho2 : lookupRow t k' with _ | o
      · simp [hk]
      · simp [hk]

theorem applyBatchWith_cons {κ ν : Type} [DecidableEq κ] (m : ν → ν → ν)
    (t : List (κ × ν)) (e : κ × ν) (b : List (κ × ν)) :
    applyBatchWith m t (e :: b) = applyBatchWith m (upsertWith m t e.1 e.2) b := rfl

theorem mem_keys_upsertWith {κ ν : Type} [DecidableEq κ] (m : ν → ν → ν)
    (t : List (κ × ν)) (k k' : κ) (v : ν) (h : k' ∈ keysOf t) :
    k' ∈ keysOf (upsertWith m t k v) := by
  rw [keysOf_upsertWith]
  split
  · exact h
  · exact List.mem_append_left _ h

theorem self_mem_keys_upsertWith {κ ν : Type} [DecidableEq κ] (m : ν → ν → ν)
    (t : List (κ × ν)) (k : κ) (v : ν) : k ∈ keysOf (upsertWith m t k v) := by
  rw [keysOf_upsertWith]
  split
  · assumption
  · exact List.mem_append_right _ (by simp)

theorem mem_keys_applyBatchWith_of_mem {κ ν : Type} [DecidableEq κ] (m : ν → ν → ν)
    (t : List (κ × ν)) (b : List (κ × ν)) (k : κ) (h : k ∈ keysOf t) :
    k ∈ keysOf (applyBatchWith m t b) := by
  induction b generalizing t with
  | nil => exact h
  | cons e rest ih =>
    rw [applyBatchWith_cons]
    exact ih _ (mem_keys_upsertWith m t e.1 k e.2 h)

theorem mem_keys_applyBatchWith_of_batch {κ ν : Type} [DecidableEq κ] (m : ν → ν → ν)
    (t : List (κ × ν)) (b : List (κ × ν)) (e : κ × ν) (h : e ∈ b) :
    e.1 ∈ keysOf (applyBatchWith m t b) := by
  induction b generalizing t with
  | nil => cases h
  | cons hd rest ih =>
    rw [applyBatchWith_cons]
    rcases List.mem_cons.mp h with h | h
    · subst h
      exact mem_keys_applyBatchWith_of_mem m _ rest e.1
        (self_mem_keys_upsertWith m t e.1 e.2)
    · exact ih _ h

theorem keysOf_applyBatchWith_of_sub {κ ν : Type} [DecidableEq κ] (m : ν → ν → ν)
    (t : List (κ × ν)) (b : List (κ × ν)) (h : ∀ e ∈ b, e.1 ∈ keysOf t) :
    keysOf (applyBatchWith m t b) = keysOf t := by
  induction b generalizing t with
  | nil => rfl
  | cons hd rest ih =>
    rw [applyBatchWith_cons]
    have hk : keysOf (upsertWith m t hd.1 hd.2) = keysOf t := by
      rw [keysOf_upsertWith, if_pos (h hd (by simp))]
    rw [ih _ (fun e he => by rw [hk]; exact h e (by simp [he])), hk]

theorem nodup_keys_upsertWith {κ ν : Type} [DecidableEq κ] (m : ν → ν → ν)
    (t : List (κ × ν)) (k : κ) (v : ν) (h : (keysOf t).Nodup) :
    (keysOf (upsertWith m t k v)).Nodup := by
  rw [keysOf_upsertWith]
  split
  · exact h
  · rename_i hk
    simp [List.nodup_append, h, hk]

theorem nodup_keys_applyBatchWith {κ ν : Type} [DecidableEq κ] (m : ν → ν → ν)
    (t : List (κ × ν)) (b : List (κ × ν)) (h : (keysOf t).Nodup) :
    (keysOf (applyBatchWith m t b)).Nodup := by
  induction b generalizing t with
  | nil => exact h
  | cons hd rest ih =>
    rw [applyBatchWith_cons]
    exact ih _ (nodup_keys_upsertWith m t hd.1 hd.2 h)

theorem table_ext {κ ν : Type} [DecidableEq κ] {t1 t2 : List (κ × ν)}
    (hk : keysOf t1 = keysOf t2) (hnd : (keysOf t1).Nodup)
    (hl : ∀ k, lookupRow t1 k = lookupRow t2 k) : t1 = t2 := by
  induction t1 generalizing t2 with
  | nil =>
    cases t2 with
    | nil => rfl
    | cons e r => simp [keysOf] at hk
  | cons e r ih =>
    cases t2 with
    | nil => simp [keysOf] at hk
    | cons e2 r2 =>
      rw [show keysOf (e :: r) = e.1 :: keysOf r from rfl,
        show keysOf (e2 :: r2) = e2.1 :: keysOf r2 from rfl] at hk
      injection hk with hk1 hk2
      rw [show keysOf (e :: r) = e.1 :: keysOf r from rfl] at hnd
      obtain ⟨hne, hndr⟩ := List.nodup_cons.mp hnd
      have hv : e.2 = e2.2 := by
        have h0 := hl e.1
        rw [lookupRow_cons, lookupRow_cons, if_pos rfl, if_pos hk1.symm] at h0
        exact Option.some.inj h0
      have he : e = e2 := Prod.ext_iff.mpr ⟨hk1, hv⟩
      have htail : r = r2 := by
        refine ih hk2 hndr ?_
        intro k
        by_cases hek : k = e.1
        · rw [hek]
          have h1 : lookupRow r e.1 = none := lookupRow_eq_none_iff.mpr hne
          have h2 : lookupRow r2 e.1 = none := lookupRow_eq_none_iff.mpr (hk2 ▸ hne)
          rw [h1, h2]
        · have h0 := hl k
          have hb : ¬ (e.1 = k) := fun hc => hek hc.symm
          have hb2 : ¬ (e2.1 = k) := fun hc => hek (hk1 ▸ hc).symm
          rwa [lookupRow_cons, lookupRow_cons, if_neg hb, if_neg hb2] at h0
      rw [he, htail]

/-- The conflict values relevant to key `k`, in batch order. -/
def relVals {κ ν : Type} [DecidableEq κ] (b : List (κ × ν)) (k : κ) : List ν :=
  b.filterMap (fun e => if e.1 = k then some e.2 else none)

/-- How the stored value at key `k` evolves across one batch. -/
def chainVal {κ ν : Type} [DecidableEq κ] (m : ν → ν → ν) (b : List (κ × ν))
    (k : κ) (init : Option ν) : Option ν :=
  b.foldl
    (fun acc e =>
      if e.1 = k then
        match acc with
        | some o => some (m o e.2)
        | none => some e.2
      else acc)
    init

theorem chainVal_nil {κ ν : Type} [DecidableEq κ] (m : ν → ν → ν) (k : κ)
    (x : Option ν) : chainVal m [] k x = x := rfl

theorem lookupRow_applyBatchWith {κ ν : Type} [DecidableEq κ] (m : ν → ν → ν)
    (t : List (κ × ν)) (b : List (κ × ν)) (k : κ) :
    lookupRow (applyBatchWith m t b) k = chainVal m b k (lookupRow t k) := by
  induction b generalizing t with
  | nil => rfl
  | cons e rest ih =>
    rw [applyBatchWith_cons]
    rw [ih]
    have hstep : lookupRow (upsertWith m t e.1 e.2) k =
        (if e.1 = k then
          match lookupRow t k with
          | some o => some (m o e.2)
          | none => some e.2
        else lookupRow t k) := by
      rw [lookupRow_upsertWith]
      by_cases h : e.1 = k
      · rw [if_pos h, if_pos h.symm, h]
      · have h2 : ¬ (k = e.1) := fun hc => h hc.symm
        rw [if_neg h, if_neg h2]
    rw [hstep]
    rfl

theorem chainVal_cons {κ ν : Type} [DecidableEq κ] (m : ν → ν → ν)
    (e : κ × ν) (rest : List (κ × ν)) (k : κ) (x : Option ν) :
    chainVal m (e :: rest) k x =
      chainVal m rest k
        (if e.1 = k then
          match x with
          | some o => some (m o e.2)
          | none => some e.2
        else x) := rfl

theorem chainVal_eq_relVals {κ ν : Type} [DecidableEq κ] (m : ν → ν → ν)
    (b : List (κ × ν)) (k : κ) (x : Option ν) :
    chainVal m b k x =
      match x, relVals b k with
      | some a, vs => some (vs.foldl m a)
      | none, [] => none
      | none, v :: rest => some (rest.foldl m v) := by
  induction b generalizing x with
  | nil => cases x <;> rfl
  | cons e rest ih =>
    by_cases he : e.1 = k
    · have hrel : relVals (e :: rest) k = e.2 :: relVals rest k := by
        simp [relVals, he]
      rw [chainVal_cons, if_pos he, hrel]
      cases x with
      | none => exact ih (some e.2)
      | some a => exact ih (some (m a e.2))
    · have hrel : relVals (e :: rest) k = relVals rest k := by
        simp [relVals, he]
      rw [chainVal_cons, if_neg he, hrel]
      exact ih x

theorem foldl_concat_collapse {ν : Type} (m : ν → ν → ν)
    (hM : ∀ a b c, m (m a b) c = m a c) :
    ∀ (ws : List ν) (a v : ν), (ws ++ [v]).foldl m a = m a v := by
  intro ws
  induction ws with
  | nil => intro a v; rfl
  | cons w ws' ih =>
    intro a v
    show (ws' ++ [v]).foldl m (m a w) = m a v
    rw [ih (m a w) v, hM]

theorem chainVal_idem {κ ν : Type} [DecidableEq κ] (m : ν → ν → ν)
    (hM : ∀ a b c, m (m a b) c = m a c) (hM2 : ∀ a, m a a = a)
    (b : List (κ × ν)) (k : κ) (x : Option ν) :
    chainVal m b k (chainVal m b k x) = chainVal m b k x := by
  rw [chainVal_eq_relVals, chainVal_eq_relVals]
  rcases List.eq_nil_or_concat (relVals b k) with hvs | ⟨ws, v, hvs⟩
  · rw [hvs]
    cases x <;> rfl
  · rw [hvs, List.concat_eq_append]
    cases x with
    | some a =>
      show some ((ws ++ [v]).foldl m ((ws ++ [v]).foldl m a)) = some ((ws ++ [v]).foldl m a)
      rw [foldl_concat_collapse m hM ws a v, foldl_concat_collapse m hM ws (m a v) v,
        hM a v v]
    | none =>
      cases ws with
      | nil =>
        show some (m v v) = some v
        rw [hM2]
      | cons w ws' =>
        show some ((w :: (ws' ++ [v])).foldl m ((ws' ++ [v]).foldl m w)) =
          some ((ws' ++ [v]).foldl m w)
        rw [foldl_concat_collapse m hM ws' w v]
        show some ((ws' ++ [v]).foldl m (m (m w v) w)) = some (m w v)
        rw [foldl_concat_collapse m hM ws' (m (m w v) w) v, hM (m w v) w v, hM w v v]

theorem applyBatchWith_idem {κ ν : Type} [DecidableEq κ] (m : ν → ν → ν)
    (hM : ∀ a b c, m (m a b) c = m a c) (hM2 : ∀ a, m a a = a)
    (t b : List (κ × ν)) (hnd : (keysOf t).Nodup) :
    applyBatchWith m (applyBatchWith m t b) b = applyBatchWith m t b := by
  apply table_ext
  · exact keysOf_applyBatchWith_of_sub m _ b
      (fun e he => mem_keys_applyBatchWith_of_batch m t b e he)
  · exact nodup_keys_applyBatchWith m _ b (nodup_keys_applyBatchWith m t b hnd)
  · intro k
    rw [lookupRow_applyBatchWith, lookupRow_applyBatchWith]
    exact chainVal_idem m hM hM2 b k (lookupRow t k)

/-! ### Claim theorems -/

def c1ErrMsg : String := "syntax error at or near SELEC"

def c1DbError : DbError := ⟨c1ErrMsg, true, some c1ErrMsg⟩

/-- Claim C1 counterexample: an execution failure that is NOT classified as a
missing relation (its message carries no relation-does-not-exist marker and
`is_missing_table_error` rejects it) is nonetheless recovered by the
country-trade-stats endpoint to the empty-list success; no server error is
propagated, contradicting the claim at this concrete input. -/
theorem claim_c1_counterexample :
    is_missing_table_error c1DbError = false ∧
    routeClassifyMissing c1ErrMsg = false ∧
    getCountryTradeStatsRoute emptyCtsParams (Except.error c1ErrMsg) =
      HttpOutcome.success [] ∧
    HttpOutcome.isServerError
      (getCountryTradeStatsRoute emptyCtsParams (Except.error c1ErrMsg)) = false := by
  refine ⟨by decide, by decide, by decide, by decide⟩

/-- Claim C1 (amended): every query-execution failure on the four
country-trade-stats reporting endpoints — whether or not it is classified as
a missing relation — is recovered to the empty list (or the zero-valued
summary default); the classification only selects the log message, and no
failure ever surfaces as a server error. -/
theorem claim_c1_amended (p : CtsParams) (tp : TrendsParams)
    (tcp : TopCountriesParams) (limit : Int) (msg : String) :
    getCountryTradeStatsRoute p (Except.error msg) = HttpOutcome.success [] ∧
    getCountryTradeStatsSummaryRoute p (Except.error msg) =
      HttpOutcome.success zeroSummaryDefault ∧
    getTrendsRoute tp (Except.error msg) = HttpOutcome.success [] ∧
    getTopCountriesRoute tcp limit (Except.error msg) = HttpOutcome.success [] := by
  refine ⟨?_, ?_, ?_, ?_⟩
  · rcases h : buildCtsConds p with e | conds <;>
      (unfold getCountryTradeStatsRoute; rw [h]; exact ite_self _)
  · rcases h : buildCtsConds p with e | conds <;>
      (unfold getCountryTradeStatsSummaryRoute; rw [h]; exact ite_self _)
  · rcases h : buildTrendsConds tp with e | conds <;>
      (unfold getTrendsRoute; rw [h]; exact ite_self _)
  · exact ite_self _

def c3Params : CtsParams :=
  ⟨none, none, none, none, none, some "202306", none, some 10000⟩

def c3Row : CmtsRow :=
  ⟨"854231_2023_06_KR", "854231", 2023, 6, "KR", some "SemiConductor",
    some 1, some 2, some 100, none, none, some 1, some 0⟩

/-- Claim C3 counterexample: with `start_year_month = "202306"` (separator
missing) the split-unpack raises, the catch-all swallows the raise, and the
endpoint returns the empty-list SUCCESS over a non-empty table — neither a
client-error classification nor a non-success outcome, contradicting the
claim at this concrete input. -/
theorem claim_c3_counterexample :
    parseYearMonth "202306" = Except.error "cannot unpack year-month string" ∧
    getCountryTradeStatsRoute c3Params (Except.ok [c3Row]) = HttpOutcome.success [] ∧
    HttpOutcome.isClientError
      (getCountryTradeStatsRoute c3Params (Except.ok [c3Row])) = false ∧
    HttpOutcome.isSuccess
      (getCountryTradeStatsRoute c3Params (Except.ok [c3Row])) = true := by
  refine ⟨rfl, by decide, by decide, by decide⟩

theorem appendStartCond_parse_error (s e : String) (conds : List CtsCond)
    (hne : s ≠ "") (hp : parseYearMonth s = Except.error e) :
    appendStartCond (some s) conds = Except.error e := by
  unfold appendStartCond
  have hst : strTruthy (some s) = true := by
    simp [strTruthy]
    exact hne
  simp only [hst, if_true, Option.getD_some, hp]

theorem appendEndCond_parse_error (s e : String) (conds : List CtsCond)
    (hne : s ≠ "") (hp : parseYearMonth s = Except.error e) :
    appendEndCond (some s) conds = Except.error e := by
  unfold appendEndCond
  have hst : strTruthy (some s) = true := by
    simp [strTruthy]
    exact hne
  simp only [hst, if_true, Option.getD_some, hp]

/-- Claim C3 (amended): a malformed (unparsable) `start_year_month` OR
`end_year_month` aborts the query before execution and the catch-all
converts the failure into an empty-list success (zero-default success for
the summary endpoint): the malformed filter is neither applied nor ignored,
and no client error is produced. -/
theorem claim_c3_amended (p : CtsParams) (db : Except String (List CmtsRow))
    (s e : String)
    (hmal : (p.start_year_month = some s ∧ s ≠ "" ∧ parseYearMonth s = Except.error e) ∨
            (p.end_year_month = some s ∧ s ≠ "" ∧ parseYearMonth s = Except.error e)) :
    getCountryTradeStatsRoute p db = HttpOutcome.success [] ∧
    getCountryTradeStatsSummaryRoute p db = HttpOutcome.success zeroSummaryDefault := by
  have hErr : ∃ e', buildCtsConds p = Except.error e' := by
    rcases hmal with ⟨hs, hne, hp⟩ | ⟨hs, hne, hp⟩
    · refine ⟨e, ?_⟩
      unfold buildCtsConds
      rw [hs, appendStartCond_parse_error s e (ctsBaseConds p) hne hp]
    · unfold buildCtsConds
      rcases h1 : appendStartCond p.start_year_month (ctsBaseConds p) with e1 | conds6
      · exact ⟨e1, rfl⟩
      · refine ⟨e, ?_⟩
        show appendEndCond p.end_year_month conds6 = Except.error e
        rw [hs]
        exact appendEndCond_parse_error s e conds6 hne hp
  obtain ⟨e', hb⟩ := hErr
  constructor
  · unfold getCountryTradeStatsRoute
    simp only [hb]
    split <;> rfl
  · unfold getCountryTradeStatsSummaryRoute
    simp only [hb]
    split <;> rfl

def c3ParamsEnd : CtsParams :=
  ⟨none, none, none, none, none, none, some "202306", some 10000⟩

/-- Witness for the amended C3 at the concrete malformed input `"202306"`,
supplied once as the start bound and once as the end bound alone. -/
theorem claim_c3_amended_witness :
    (getCountryTradeStatsRoute c3Params (Except.ok [c3Row]) = HttpOutcome.success []) ∧
    (getCountryTradeStatsRoute c3ParamsEnd (Except.ok [c3Row]) = HttpOutcome.success []) :=
  ⟨(claim_c3_amended c3Params (Except.ok [c3Row]) "202306"
      "cannot unpack year-month string" (Or.inl ⟨rfl, by decide, rfl⟩)).1,
    (claim_c3_amended c3ParamsEnd (Except.ok [c3Row]) "202306"
      "cannot unpack year-month string" (Or.inr ⟨rfl, by decide, rfl⟩)).1⟩

/-- Claim C9: running the origin-stats batch upsert twice with the same
batch over any table whose natural keys are unique (the uniqueness
constraint of the backing table) leaves the table exactly as after the
first run — identical rows and identical row count — because the primary
key is a deterministic concatenation of the natural key fields and the
`ON CONFLICT DO UPDATE` overwrites every updated column with the incoming
value. -/
theorem claim_c9_etl_upsert_idempotent
    (t b : List (OriginKey × OriginVals)) (hnd : (keysOf t).Nodup) :
    originBatchInsert (originBatchInsert t b) b = originBatchInsert t b ∧
    (originBatchInsert (originBatchInsert t b) b).length =
      (originBatchInsert t b).length := by
  have hM : ∀ a b c : OriginVals,
      mergeOriginOnConflict (mergeOriginOnConflict a b) c = mergeOriginOnConflict a c :=
    fun _ _ _ => rfl
  have hM2 : ∀ a : OriginVals, mergeOriginOnConflict a a = a := fun _ => rfl
  have h := applyBatchWith_idem mergeOriginOnConflict hM hM2 t b hnd
  exact ⟨h, congrArg List.length h⟩

def c9Key : OriginKey := ⟨"854231", 2023, 6, "KR", "CN"⟩

def c9Val : OriginVals :=
  ⟨mkOriginStatId "854231" 2023 6 "KR" "CN", "SemiConductor",
    some 10, some 5, some 1000, none, none, some 3, some 0⟩

def c9Val2 : OriginVals := { c9Val with weight := some 20 }

/-- Witness for C9 on a concrete one-row table and a two-row batch hitting
the same natural key. -/
theorem claim_c9_etl_upsert_idempotent_witness :
    (keysOf ([(c9Key, c9Val)] : List (OriginKey × OriginVals))).Nodup ∧
    originBatchInsert (originBatchInsert [(c9Key, c9Val)] [(c9Key, c9Val2), (c9Key, c9Val)])
        [(c9Key, c9Val2), (c9Key, c9Val)] =
      originBatchInsert [(c9Key, c9Val)] [(c9Key, c9Val2), (c9Key, c9Val)] :=
  ⟨by decide,
    (claim_c9_etl_upsert_idempotent [(c9Key, c9Val)] [(c9Key, c9Val2), (c9Key, c9Val)]
      (by decide)).1⟩

/-- Claim C4: supplying an empty list for a multi-value filter parameter
(hs_code, country, company names, category ids) produces exactly the same
composed conditions and bound values — and hence the same route output and
filtered row set — as omitting the parameter: Python truthiness makes
`some []` and `none` indistinguishable to every builder. -/
theorem claim_c4_empty_list_means_absent :
    (∀ p : CtsParams, buildCtsConds { p with hs_code := some [] } =
      buildCtsConds { p with hs_code := none }) ∧
    (∀ p : CtsParams, buildCtsConds { p with country := some [] } =
      buildCtsConds { p with country := none }) ∧
    (∀ (p : CtsParams) (db : Except String (List CmtsRow)),
      getCountryTradeStatsRoute { p with hs_code := some [] } db =
        getCountryTradeStatsRoute { p with hs_code := none } db) ∧
    (∀ (p : CtsParams) (db : Except String (List CmtsRow)),
      getCountryTradeStatsRoute { p with country := some [] } db =
        getCountryTradeStatsRoute { p with country := none } db) ∧
    (∀ p : McfParams, buildMcfQuery { p with hs_code := some [] } =
      buildMcfQuery { p with hs_code := none }) ∧
    (∀ p : McfParams, buildMcfQuery { p with category_id := some [] } =
      buildMcfQuery { p with category_id := none }) ∧
    (∀ p : McfParams, buildMcfQuery { p with country := some [] } =
      buildMcfQuery { p with country := none }) ∧
    (∀ p : McfParams, buildMcfQuery { p with company := some [] } =
      buildMcfQuery { p with company := none }) ∧
    (∀ (p : McfParams) (cats : List HsCat) (rows : List McfRow),
      rows.filter (evalMcfQuery cats (buildMcfQuery { p with company := some [] })) =
        rows.filter (evalMcfQuery cats (buildMcfQuery { p with company := none }))) ∧
    (∀ p : ShipParams, buildShipmentsConds { p with hs_code := some [] } =
      buildShipmentsConds { p with hs_code := none }) ∧
    (∀ p : ShipParams, buildShipmentsConds { p with country := some [] } =
      buildShipmentsConds { p with country := none }) ∧
    (∀ (p : TxnParams) (t : Txn), txnMatches { p with origin_country := some [] } t =
      txnMatches { p with origin_country := none } t) ∧
    (∀ (p : TxnParams) (t : Txn), txnMatches { p with category_id := some [] } t =
      txnMatches { p with category_id := none } t) := by
  refine ⟨fun p => rfl, fun p => rfl, fun p db => rfl, fun p db => rfl, fun p => rfl,
    fun p => rfl, fun p => rfl, fun p => rfl, fun p cats rows => rfl, fun p => rfl,
    fun p => rfl, fun p t => rfl, fun p t => rfl⟩

def c10Txn : Txn :=
  ⟨"t1", some "e1", none, "KR", "CN", "cat1", 1, 2, 2, 100, "completed"⟩

/-- Claim C10: within the composed `get_transactions` filter, the
`origin_country` multi-value parameter contributes the disjunct "origin
country code in the list OR destination country code in the list", while
the `destination_country` scalar parameter contributes equality on the
destination column only; all other filters are unaffected. -/
theorem claim_c10_origin_country_matches_either_side :
    (∀ (p : TxnParams) (t : Txn) (cs : List String), cs ≠ [] →
      txnMatches { p with origin_country := some cs } t =
        ((cs.contains t.origin_country_code || cs.contains t.destination_country_code) &&
          txnMatches { p with origin_country := none } t)) ∧
    (∀ (p : TxnParams) (t : Txn) (d : String), d ≠ "" →
      txnMatches { p with destination_country := some d } t =
        ((t.destination_country_code == d) &&
          txnMatches { p with destination_country := none } t)) := by
  constructor
  · intro p t cs h
    have hlt : listTruthy (some cs) = true := by
      simp [listTruthy]
      exact h
    have ho : txnOriginOk { p with origin_country := some cs } t =
        (cs.contains t.origin_country_code || cs.contains t.destination_country_code) := by
      unfold txnOriginOk
      simp [hlt]
    have ho2 : txnOriginOk { p with origin_country := none } t = true := rfl
    show (txnStartOk p t && txnEndOk p t &&
        txnOriginOk { p with origin_country := some cs } t && txnDestOk p t &&
        txnCatOk p t && txnCompanyOk p t && txnMinOk p t && txnMaxOk p t &&
        txnStatusOk p t) =
      ((cs.contains t.origin_country_code || cs.contains t.destination_country_code) &&
        (txnStartOk p t && txnEndOk p t &&
          txnOriginOk { p with origin_country := none } t && txnDestOk p t &&
          txnCatOk p t && txnCompanyOk p t && txnMinOk p t && txnMaxOk p t &&
          txnStatusOk p t))
    rw [ho, ho2]
    cases cs.contains t.origin_country_code || cs.contains t.destination_country_code <;>
      simp [Bool.and_assoc, Bool.and_comm, Bool.and_left_comm]
  · intro p t d h
    have hst : strTruthy (some d) = true := by
      simp [strTruthy]
      exact h
    have ho : txnDestOk { p with destination_country := some d } t =
        (t.destination_country_code == d) := by
      unfold txnDestOk
      simp [hst]
    have ho2 : txnDestOk { p with destination_country := none } t = true := rfl
    show (txnStartOk p t && txnEndOk p t && txnOriginOk p t &&
        txnDestOk { p with destination_country := some d } t &&
        txnCatOk p t && txnCompanyOk p t && txnMinOk p t && txnMaxOk p t &&
        txnStatusOk p t) =
      ((t.destination_country_code == d) &&
        (txnStartOk p t && txnEndOk p t && txnOriginOk p t &&
          txnDestOk { p with destination_country := none } t &&
          txnCatOk p t && txnCompanyOk p t && txnMinOk p t && txnMaxOk p t &&
          txnStatusOk p t))
    rw [ho, ho2]
    cases t.destination_country_code == d <;>
      simp [Bool.and_assoc, Bool.and_comm, Bool.and_left_comm]

/-- Witness for C10 at a concrete transaction matched through its
destination side by the `origin_country` filter. -/
theorem claim_c10_witness :
    txnMatches { emptyTxnParams with origin_country := some ["CN"] } c10Txn =
      ((["CN"].contains c10Txn.origin_country_code ||
          ["CN"].contains c10Txn.destination_country_code) &&
        txnMatches { emptyTxnParams with origin_country := none } c10Txn) :=
  claim_c10_origin_country_matches_either_side.1 emptyTxnParams c10Txn ["CN"] (by decide)

theorem shipStartConds_no_pfx (ym : Option String) (conds : List ShipCond)
    (h : shipStartConds ym = Except.ok conds) (ps : List String) :
    ShipCond.hsPfxIn ps ∉ conds := by
  unfold shipStartConds at h
  split at h
  · rcases hp : parseYearMonth (ym.getD "") with e | v <;> rw [hp] at h
    · cases h
    · injection h with h2
      subst h2
      simp
  · injection h with h2
    subst h2
    simp

theorem shipEndConds_no_pfx (ym : Option String) (conds0 conds : List ShipCond)
    (h : shipEndConds ym conds0 = Except.ok conds) (ps : List String)
    (h0 : ShipCond.hsPfxIn ps ∉ conds0) : ShipCond.hsPfxIn ps ∉ conds := by
  unfold shipEndConds at h
  split at h
  · rcases hp : parseYearMonth (ym.getD "") with e | v <;> rw [hp] at h
    · cases h
    · injection h with h2
      subst h2
      simp [h0]
  · injection h with h2
    subst h2
    exact h0

/-- Claim C5: when a truthy full `hs_code` list is supplied, the shipments
query is built exactly as if the 2-digit chapter parameter were absent (the
`elif` is never reached): the full-code membership fragment is in the
composed conditions and no chapter fragment ever is.  The chapter fragment
is added when no full-code filter is supplied, and its semantics tests the
first two characters of `hs_code`. -/
theorem claim_c5_hs_code_priority :
    (∀ p : ShipParams, listTruthy p.hs_code = true →
      buildShipmentsConds p = buildShipmentsConds { p with hs_code_pfx := none }) ∧
    (∀ (p : ShipParams) (conds : List ShipCond), listTruthy p.hs_code = true →
      buildShipmentsConds p = Except.ok conds →
      ShipCond.hsCodeIn (p.hs_code.getD []) ∈ conds ∧
        ∀ ps : List String, ShipCond.hsPfxIn ps ∉ conds) ∧
    (∀ (p : ShipParams) (conds : List ShipCond) (ps : List String),
      listTruthy p.hs_code = false → p.hs_code_pfx = some ps → ps ≠ [] →
      buildShipmentsConds p = Except.ok conds → ShipCond.hsPfxIn ps ∈ conds) ∧
    (∀ (ps : List String) (r : CotsRow),
      evalShipCond (ShipCond.hsPfxIn ps) r = ps.contains (r.hs_code.take 2)) := by
  refine ⟨?_, ?_, ?_, fun ps r => rfl⟩
  · intro p h
    unfold buildShipmentsConds
    dsimp only
    rcases h1 : shipStartConds p.start_year_month with e | conds1
    · simp only [h1]
    · simp only [h1]
      rcases h2 : shipEndConds p.end_year_month conds1 with e | conds2
      · simp only [h2]
      · simp only [h2, h, if_true]
  · intro p conds h hb
    unfold buildShipmentsConds at hb
    rcases h1 : shipStartConds p.start_year_month with e | conds1
    · simp only [h1] at hb
      cases hb
    · simp only [h1] at hb
      rcases h2 : shipEndConds p.end_year_month conds1 with e | conds2
      · simp only [h2] at hb
        cases hb
      · simp only [h2, h, if_true] at hb
        injection hb with hb2
        have hnp3 : ∀ ps : List String, ShipCond.hsPfxIn ps ∉
            (if listTruthy p.country then
              conds2 ++ [ShipCond.countryOrIn (p.country.getD [])]
             else conds2) := by
          intro ps
          have hn2 := shipEndConds_no_pfx p.end_year_month conds1 conds2 h2 ps
            (shipStartConds_no_pfx p.start_year_month conds1 h1 ps)
          split <;> simp [hn2]
        constructor
        · rw [← hb2]
          split <;> simp
        · intro ps
          rw [← hb2]
          have hn3 := hnp3 ps
          clear hb2
          split <;> simp [hn3]
  · intro p conds ps h hpfx hne hb
    have hlt2 : listTruthy (some ps) = true := by
      simp [listTruthy]
      exact hne
    unfold buildShipmentsConds at hb
    rcases h1 : shipStartConds p.start_year_month with e | conds1
    · simp only [h1] at hb
      cases hb
    · simp only [h1] at hb
      rcases h2 : shipEndConds p.end_year_month conds1 with e | conds2
      · simp only [h2] at hb
        cases hb
      · simp only [h2, h, Bool.false_eq_true, if_false, hpfx, hlt2, if_true,
          Option.getD_some] at hb
        injection hb with hb2
        rw [← hb2]
        split <;> simp

def c5Params : ShipParams :=
  ⟨none, none, none, some ["99"], some ["854231"], none, some 10000⟩

def c5ParamsPfxOnly : ShipParams :=
  ⟨none, none, none, some ["99"], none, none, some 10000⟩

/-- Witness for C5: with both filters supplied only the full-code fragment
is built; with the chapter filter alone its fragment is built. -/
theorem claim_c5_witness :
    (buildShipmentsConds c5Params =
      buildShipmentsConds { c5Params with hs_code_pfx := none }) ∧
    (ShipCond.hsCodeIn (c5Params.hs_code.getD []) ∈ [ShipCond.hsCodeIn ["854231"]]) ∧
    (ShipCond.hsPfxIn ["99"] ∈ [ShipCond.hsPfxIn ["99"]]) :=
  ⟨claim_c5_hs_code_priority.1 c5Params rfl,
    (claim_c5_hs_code_priority.2.1 c5Params [ShipCond.hsCodeIn ["854231"]] rfl rfl).1,
    claim_c5_hs_code_priority.2.2.1 c5ParamsPfxOnly [ShipCond.hsPfxIn ["99"]] ["99"]
      rfl rfl (by decide) rfl⟩

theorem appendStartCond_ok (s : String) (y m : Int) (conds : List CtsCond)
    (hne : s ≠ "") (hp : parseYearMonth s = Except.ok (y, m)) :
    appendStartCond (some s) conds = Except.ok (conds ++ [CtsCond.startRange y m]) := by
  unfold appendStartCond
  have hst : strTruthy (some s) = true := by
    simp [strTruthy]
    exact hne
  simp only [hst, if_true, Option.getD_some, hp]

theorem appendEndCond_ok (s : String) (y m : Int) (conds : List CtsCond)
    (hne : s ≠ "") (hp : parseYearMonth s = Except.ok (y, m)) :
    appendEndCond (some s) conds = Except.ok (conds ++ [CtsCond.endRange y m]) := by
  unfold appendEndCond
  have hst : strTruthy (some s) = true := by
    simp [strTruthy]
    exact hne
  simp only [hst, if_true, Option.getD_some, hp]

/-- Claim C6: with well-formed start `Y1-M1` and end `Y2-M2` bounds (and no
other filters), the composed WHERE clause is exactly the two disjunctive
range fragments, each fragment denotes
`(year > y) OR (year = y AND month >=/<= m)`, and at `2023-06`/`2023-06`
exactly the rows with `year = 2023 AND month = 6` satisfy the conjunction. -/
theorem claim_c6_month_range (s1 s2 : String) (y1 m1 y2 m2 : Int) (lim : Option Int)
    (hne1 : s1 ≠ "") (h1 : parseYearMonth s1 = Except.ok (y1, m1))
    (hne2 : s2 ≠ "") (h2 : parseYearMonth s2 = Except.ok (y2, m2)) :
    buildCtsConds ⟨none, none, none, none, none, some s1, some s2, lim⟩ =
      Except.ok [CtsCond.startRange y1 m1, CtsCond.endRange y2 m2] ∧
    (∀ r : CmtsRow,
      (evalCtsCond (CtsCond.startRange y1 m1) r &&
        evalCtsCond (CtsCond.endRange y2 m2) r) = true ↔
      ((y1 < r.year ∨ (r.year = y1 ∧ m1 ≤ r.month)) ∧
        (r.year < y2 ∨ (r.year = y2 ∧ r.month ≤ m2)))) ∧
    (∀ r : CmtsRow,
      evalCtsConds [CtsCond.startRange 2023 6, CtsCond.endRange 2023 6] r = true ↔
      (r.year = 2023 ∧ r.month = 6)) := by
  refine ⟨?_, ?_, ?_⟩
  · unfold buildCtsConds ctsBaseConds
    simp only [listTruthy, intTruthy, strTruthy, Bool.false_eq_true, if_false]
    rw [appendStartCond_ok s1 y1 m1 [] hne1 h1]
    show appendEndCond (some s2) [CtsCond.startRange y1 m1] = _
    rw [appendEndCond_ok s2 y2 m2 [CtsCond.startRange y1 m1] hne2 h2]
    rfl
  · intro r
    simp only [evalCtsCond, Bool.and_eq_true, Bool.or_eq_true, decide_eq_true_eq]
  · intro r
    simp only [evalCtsConds, List.all_cons, List.all_nil, evalCtsCond, Bool.and_eq_true,
      Bool.or_eq_true, decide_eq_true_eq, Bool.and_true]
    omega

/-- Witness for C6 at the boundary input `2023-06` / `2023-06`. -/
theorem claim_c6_witness :
    buildCtsConds ⟨none, none, none, none, none, some "2023-06", some "2023-06",
        some 10000⟩ =
      Except.ok [CtsCond.startRange 2023 6, CtsCond.endRange 2023 6] :=
  (claim_c6_month_range "2023-06" "2023-06" 2023 6 2023 6 (some 10000)
    (by decide) rfl (by decide) rfl).1

/-- Claim C7: whenever the summary endpoint's filtered set is empty, the
returned record is fully zero-valued — `total_trade_value = 0` (not null),
`total_countries = 0`, and every coalesced sum is `some 0`, never `none` —
because each aggregate is wrapped in `COALESCE(..., 0)` in the SELECT. -/
theorem claim_c7_zero_default_summary (p : CtsParams) (rows : List CmtsRow)
    (conds : List CtsCond) (hb : buildCtsConds p = Except.ok conds)
    (hempty : rows.filter (evalCtsConds conds) = []) :
    getCountryTradeStatsSummaryRoute p (Except.ok rows) =
      HttpOutcome.success
        { total_countries := 0, total_trade_value := 0, total_weight := some 0,
          total_quantity := some 0, total_trade_count := 0, avg_share_pct := 0 } := by
  unfold getCountryTradeStatsSummaryRoute
  simp only [hb, hempty]
  rfl

def c7Params : CtsParams := ⟨none, some 1999, none, none, none, none, none, some 10000⟩

/-- Witness for C7: a year filter matching nothing over a non-empty table. -/
theorem claim_c7_zero_default_summary_witness :
    getCountryTradeStatsSummaryRoute c7Params (Except.ok [c3Row]) =
      HttpOutcome.success
        { total_countries := 0, total_trade_value := 0, total_weight := some 0,
          total_quantity := some 0, total_trade_count := 0, avg_share_pct := 0 } :=
  claim_c7_zero_default_summary c7Params [c3Row] [CtsCond.yearEq 1999] rfl (by decide)

theorem ymAscLe_trans : ∀ a b c : Int × Int,
    ymAscLe a b = true → ymAscLe b c = true → ymAscLe a c = true := by
  intro a b c hab hbc
  simp only [ymAscLe, Bool.or_eq_true, Bool.and_eq_true, decide_eq_true_eq] at *
  omega

theorem ymAscLe_total : ∀ a b : Int × Int, (ymAscLe a b || ymAscLe b a) = true := by
  intro a b
  simp only [ymAscLe, Bool.or_eq_true, Bool.and_eq_true, decide_eq_true_eq]
  omega

/-- The emitted `(year, month)` group keys of the trends query are in
ascending order. -/
theorem trendKeys_sorted (rows : List CmtsRow) :
    (trendKeys rows).Pairwise (fun a b => ymAscLe a b = true) :=
  List.sorted_mergeSort ymAscLe_trans ymAscLe_total _

theorem usdDescLe_trans : ∀ a b c : TopCountryOut,
    usdDescLe a b = true → usdDescLe b c = true → usdDescLe a c = true := by
  intro a b c hab hbc
  simp only [usdDescLe, decide_eq_true_eq] at *
  exact le_trans hbc hab

theorem usdDescLe_total : ∀ a b : TopCountryOut, (usdDescLe a b || usdDescLe b a) = true := by
  intro a b
  simp only [usdDescLe, Bool.or_eq_true, decide_eq_true_eq]
  exact le_total b.sum_of_usd a.sum_of_usd

/-- Claim C8: the trends endpoint emits its per-period rows ascending by the
`(year, month)` group key (every successful response is the image of such an
ordered key list), and the top-countries query emits rows descending by
summed USD value, truncated to the caller's limit, whose FastAPI default
is 10. -/
theorem claim_c8_orderings :
    (∀ rows : List CmtsRow,
      (trendsQueryRows rows).Pairwise (fun a b => ymAscLe a.1 b.1 = true)) ∧
    (∀ (tp : TrendsParams) (db : Except String (List CmtsRow)) (out : List TrendOut),
      getTrendsRoute tp db = HttpOutcome.success out →
      ∃ rows : List CmtsRow, out = (trendsQueryRows rows).map (fun e => e.2)) ∧
    (∀ (rows : List CmtsRow) (limit : Int),
      (topCountriesQuery rows limit).Pairwise
        (fun a b => b.sum_of_usd ≤ a.sum_of_usd) ∧
      (topCountriesQuery rows limit).length ≤ limit.toNat) ∧
    topCountriesDefaultLimit = 10 := by
  refine ⟨?_, ?_, ?_, rfl⟩
  · intro rows
    unfold trendsQueryRows
    rw [List.pairwise_map]
    exact trendKeys_sorted rows
  · intro tp db out h
    unfold getTrendsRoute at h
    rcases hb : buildTrendsConds tp with e | conds
    · simp only [hb, ite_self] at h
      injection h with h2
      refine ⟨[], ?_⟩
      rw [← h2]
      simp [trendsQueryRows, trendKeys]
    · simp only [hb] at h
      rcases db with e | rows
      · simp only [ite_self] at h
        injection h with h2
        refine ⟨[], ?_⟩
        rw [← h2]
        simp [trendsQueryRows, trendKeys]
      · injection h with h2
        exact ⟨rows.filter (evalCtsConds conds), h2.symm⟩
  · intro rows limit
    constructor
    · unfold topCountriesQuery
      refine List.Pairwise.imp ?_
        ((List.sorted_mergeSort usdDescLe_trans usdDescLe_total _).sublist
          (List.take_sublist _ _))
      intro a b hab
      simpa [usdDescLe] using hab
    · unfold topCountriesQuery
      rw [List.length_take]
      exact Nat.min_le_left _ _

def c2Stat : StatData := ⟨some 0, some 5, some "CN", some 100, none, none, some 2, some 0⟩

/-- Claim C2 counterexample: a flat-monthly source record with `weight = 0`
and a valid country code would be dropped by the claimed three-part filter
(and IS dropped by the nested loader), but the flat monthly loader keeps and
loads it — the filter is not applied identically to both structures. -/
theorem claim_c2_counterexample :
    c2Stat.weight.getD 0 = 0 ∧
    should_filter_record c2Stat = true ∧
    nestedStatKept "KR" c2Stat = false ∧
    flatStatKept c2Stat = true ∧
    (importFlatFile "854231" 2023 "SemiConductor" [("06", [c2Stat])]).length = 1 := by
  refine ⟨by decide, by decide, by decide, by decide, by decide⟩

/-- Claim C2 (amended): the three-part validity filter (`weight = 0`,
`quantity = 0`, country code `"N/A"`) governs only the origin-destination
nested loader (which additionally skips a record whose country code,
defaulting to the origin code, is `"N/A"`); the flat monthly loader drops a
record exactly when its country code is missing/empty or `"N/A"`, never
testing weight or quantity. -/
theorem claim_c2_amended :
    (∀ s : StatData, should_filter_record s =
      ((s.weight.getD 0 == 0) || (s.quantity.getD 0 == 0) ||
        (s.countryCode.getD "" == "N/A"))) ∧
    (∀ (origin : String) (s : StatData), nestedStatKept origin s =
      (!(s.weight.getD 0 == 0) && !(s.quantity.getD 0 == 0) &&
        !(s.countryCode.getD "" == "N/A") && !(s.countryCode.getD origin == "N/A"))) ∧
    (∀ s : StatData, flatStatKept s =
      (!(s.countryCode.getD "" == "") && !(s.countryCode.getD "" == "N/A"))) ∧
    (∀ (hs : String) (year month : Int) (industry origin dest : String)
      (stats : List StatData), origin ≠ "N/A" → dest ≠ "N/A" →
      importNestedFile hs year month industry [(origin, [(dest, stats)])] =
        (stats.filter (nestedStatKept origin)).map
          (mkOriginRecord hs year month industry origin dest)) ∧
    (∀ (hs : String) (year : Int) (industry mstr : String) (lst : List StatData),
      (!mstr.data.isEmpty && mstr.data.all Char.isDigit && mstr.data.length == 2) = true →
      importFlatFile hs year industry [(mstr, lst)] =
        (lst.filter flatStatKept).map
          (mkFlatRecord hs year industry ((parseIntCL mstr.data).getD 0))) := by
  refine ⟨fun s => rfl, ?_, ?_, ?_, ?_⟩
  · intro origin s
    simp [nestedStatKept, should_filter_record, Bool.not_or, Bool.and_assoc]
  · intro s
    simp [flatStatKept, Bool.not_or]
  · intro hs year month industry origin dest stats horigin hdest
    unfold importNestedFile
    simp [horigin, hdest]
  · intro hs year industry mstr lst h
    show flatProcessMonth hs year industry mstr lst ++ [] = _
    rw [List.append_nil]
    unfold flatProcessMonth
    rw [if_pos h]

/-- Witness for the amended C2: the flat loader loads the weight-0 record
the nested filter would drop. -/
theorem claim_c2_amended_witness :
    importFlatFile "854231" 2023 "SemiConductor" [("06", [c2Stat])] =
      (([c2Stat].filter flatStatKept).map
        (mkFlatRecord "854231" 2023 "SemiConductor" ((parseIntCL "06".data).getD 0))) :=
  claim_c2_amended.2.2.2.2 "854231" 2023 "SemiConductor" "06" [c2Stat] (by decide)
